import Mathlib

/-
Verification of the stepper motion-control core.

Embedded from the Rust sources:
  - src/stepper/step.rs          : StepFuture and its poll/release operations
  - src/motion_control/state.rs  : the State machine, update, delay_left
  - src/traits.rs                : driver trait constants (PULSE_LENGTH, SETUP_TIME)

Hardware (pins, timers, conversions) is external to the core; its behaviour is
modelled by an environment record with one field per call site.  Each call site
is queried at most once per invocation of the update operation, so a fixed
environment per call covers every execution path of a single call.
-/

namespace Stepper

/-- Modelled from the spec: the Direction enum (defined in the crate root,
which is not among the provided sources) is a signed unit, forward = +1,
backward = -1, applied to the running step counter. -/
inductive Direction : Type where
  | Forward
  | Backward
deriving DecidableEq, Repr

/-- Modelled from the spec: the signed unit of a direction, used by the update
operation as the step-counter increment. -/
def Direction.toInt : Direction → Int
  | .Forward => 1
  | .Backward => -1

/-- Poll result of a future, mirroring core::task::Poll. -/
inductive Poll (α : Type) : Type where
  | Ready (a : α)
  | Pending
deriving DecidableEq, Repr

/-- Result of a non-blocking timer wait, mirroring Result of unit and nb::Error. -/
inductive NbResult (E : Type) : Type where
  | ok
  | wouldBlock
  | other (e : E)
deriving DecidableEq, Repr

/-- Modelled from the spec: SignalError (defined in stepper/mod.rs, not among
the provided sources) with one variant per failure cause of a pulse future, as
used by step.rs: pin capability unavailable, pin signal error, nanoseconds to
ticks conversion error, timer error. -/
inductive SignalError (EPa EP ENs ETim : Type) : Type where
  | PinUnavailable (e : EPa)
  | Pin (e : EP)
  | NanosecondsToTicks (e : ENs)
  | Timer (e : ETim)
deriving DecidableEq, Repr

/-- Hardware actions a pulse future can perform, recorded as a trace by poll. -/
inductive HwAction : Type where
  | stepPinAccess
  | pinSetHigh
  | pinSetLow
  | nsConversion
  | timerStart
  | timerWait
deriving DecidableEq, Repr

/-- Internal phase of a StepFuture, embedding the private State enum of
src/stepper/step.rs. -/
inductive StepState : Type where
  | Initial
  | PulseStarted
  | Finished
deriving DecidableEq, Repr

/-- The StepFuture of src/stepper/step.rs: owns the driver and timer resources
and an internal phase. -/
structure StepFuture (Driver Timer : Type) : Type where
  driver : Driver
  timer : Timer
  state : StepState
deriving DecidableEq, Repr

/-- Outcomes of the hardware call sites a StepFuture.poll can reach, one field
per call site: the step pin accessor and set_high in the Initial phase, the
conversion of PULSE_LENGTH to ticks, the timer start, the timer wait in the
PulseStarted phase, the step pin accessor and set_low when the wait is ready.
The pulseLength field embeds the PULSE_LENGTH constant of the Step trait, in
nanoseconds. -/
structure StepHw (ESt ENs ETim Ticks : Type) : Type where
  stepAccInitial : Option ESt
  setHigh : Option ESt
  nsToTicks : Nat → Except ENs Ticks
  timerStartPulse : Ticks → Option ETim
  timerWaitStep : NbResult ETim
  stepAccPulseEnd : Option ESt
  setLow : Option ESt
  pulseLength : Nat

/-- Create a new StepFuture, embedding StepFuture::new: the phase starts at
Initial. -/
def StepFuture.new (driver : Driver) (timer : Timer) : StepFuture Driver Timer :=
  { driver := driver, timer := timer, state := .Initial }

/-- Poll the step future, embedding StepFuture::poll of src/stepper/step.rs.
Returns the poll result, the future after the call (poll takes the future by
mutable reference), and the trace of hardware actions performed.  In the
Initial phase an early error return leaves the phase at Initial; in the
PulseStarted phase a pin error leaves the phase at PulseStarted, while a timer
wait error moves the phase to Finished before reporting the error. -/
def StepFuture.poll (hw : StepHw ESt ENs ETim Ticks) (f : StepFuture Driver Timer) :
    Poll (Except (SignalError ESt ESt ENs ETim) Unit) × StepFuture Driver Timer × List HwAction :=
  match f.state with
  | .Initial =>
    match hw.stepAccInitial with
    | some err => (.Ready (.error (.PinUnavailable err)), f, [.stepPinAccess])
    | none =>
      match hw.setHigh with
      | some err => (.Ready (.error (.Pin err)), f, [.stepPinAccess, .pinSetHigh])
      | none =>
        match hw.nsToTicks hw.pulseLength with
        | .error err =>
          (.Ready (.error (.NanosecondsToTicks err)), f,
            [.stepPinAccess, .pinSetHigh, .nsConversion])
        | .ok ticks =>
          match hw.timerStartPulse ticks with
          | some err =>
            (.Ready (.error (.Timer err)), f,
              [.stepPinAccess, .pinSetHigh, .nsConversion, .timerStart])
          | none =>
            (.Pending, { f with state := .PulseStarted },
              [.stepPinAccess, .pinSetHigh, .nsConversion, .timerStart])
  | .PulseStarted =>
    match hw.timerWaitStep with
    | .ok =>
      match hw.stepAccPulseEnd with
      | some err =>
        (.Ready (.error (.PinUnavailable err)), f, [.timerWait, .stepPinAccess])
      | none =>
        match hw.setLow with
        | some err =>
          (.Ready (.error (.Pin err)), f, [.timerWait, .stepPinAccess, .pinSetLow])
        | none =>
          (.Ready (.ok ()), { f with state := .Finished },
            [.timerWait, .stepPinAccess, .pinSetLow])
    | .other err => (.Ready (.error (.Timer err)), { f with state := .Finished }, [.timerWait])
    | .wouldBlock => (.Pending, f, [.timerWait])
  | .Finished => (.Ready (.ok ()), f, [])

/-- Release the resources moved into the future, embedding StepFuture::release. -/
def StepFuture.release (f : StepFuture Driver Timer) : Driver × Timer :=
  (f.driver, f.timer)

/-- Modelled from the spec: internal phase of the direction pulse future
(src/stepper/set_direction.rs is not among the provided sources); same phase
shape as the step future. -/
inductive SetDirectionState : Type where
  | Initial
  | DirectionSet
  | Finished
deriving DecidableEq, Repr

/-- Modelled from the spec: the SetDirectionFuture (its source file is not
among the provided sources) mirrors the step future, substituting the DIR pin
and the driver setup time for the STEP pin and pulse length; it owns the
driver and timer resources for its lifetime. -/
structure SetDirectionFuture (Driver Timer : Type) : Type where
  direction : Direction
  driver : Driver
  timer : Timer
  state : SetDirectionState
deriving DecidableEq, Repr

/-- Modelled from the spec: outcomes of the hardware call sites of the
direction future, one field per call site; setupTime embeds the SETUP_TIME
constant of the SetDirection trait, in nanoseconds. -/
structure DirHw (ESd ENs ETim Ticks : Type) : Type where
  dirAcc : Option ESd
  dirSet : Option ESd
  nsToTicks : Nat → Except ENs Ticks
  timerStartSetup : Ticks → Option ETim
  timerWaitSetup : NbResult ETim
  setupTime : Nat

/-- Modelled from the spec: create a new direction future with the phase at
Initial, mirroring SetDirectionFuture::new(direction, driver, timer). -/
def SetDirectionFuture.new (direction : Direction) (driver : Driver) (timer : Timer) :
    SetDirectionFuture Driver Timer :=
  { direction := direction, driver := driver, timer := timer, state := .Initial }

/-- Modelled from the spec: poll the direction future; same shape as
StepFuture.poll, driving the DIR pin to the requested level and waiting the
setup time, with no trailing pin operation. -/
def SetDirectionFuture.poll (hw : DirHw ESd ENs ETim Ticks)
    (f : SetDirectionFuture Driver Timer) :
    Poll (Except (SignalError ESd ESd ENs ETim) Unit) × SetDirectionFuture Driver Timer :=
  match f.state with
  | .Initial =>
    match hw.dirAcc with
    | some err => (.Ready (.error (.PinUnavailable err)), f)
    | none =>
      match hw.dirSet with
      | some err => (.Ready (.error (.Pin err)), f)
      | none =>
        match hw.nsToTicks hw.setupTime with
        | .error err => (.Ready (.error (.NanosecondsToTicks err)), f)
        | .ok ticks =>
          match hw.timerStartSetup ticks with
          | some err => (.Ready (.error (.Timer err)), f)
          | none => (.Pending, { f with state := .DirectionSet })
  | .DirectionSet =>
    match hw.timerWaitSetup with
    | .ok => (.Ready (.ok ()), { f with state := .Finished })
    | .other err => (.Ready (.error (.Timer err)), { f with state := .Finished })
    | .wouldBlock => (.Pending, f)
  | .Finished => (.Ready (.ok ()), f)

/-- Modelled from the spec: release the resources moved into the direction
future, mirroring StepFuture::release. -/
def SetDirectionFuture.release (f : SetDirectionFuture Driver Timer) : Driver × Timer :=
  (f.driver, f.timer)

/-- Modelled from the spec: the TimeConversionError enum
(src/motion_control/error.rs is not among the provided sources), with the two
variants used by delay_left: a failed delay-to-ticks conversion and a failed
nanoseconds-to-ticks conversion. -/
inductive TimeConversionError (ENs ECv : Type) : Type where
  | DelayToTicks (e : ECv)
  | NanosecondsToTicks (e : ENs)
deriving DecidableEq, Repr

/-- Modelled from the spec: the motion-control Error enum
(src/motion_control/error.rs is not among the provided sources), with the
variants used by the update operation: an error while setting direction, an
error while stepping, a time conversion error, and a timer error while
starting or waiting out the step delay. -/
inductive Error (ESd ESt ENs ETim ECv : Type) : Type where
  | SetDirection (e : SignalError ESd ESd ENs ETim)
  | Step (e : SignalError ESt ESt ENs ETim)
  | TimeConversion (e : TimeConversionError ENs ECv)
  | StepDelay (e : ETim)
deriving DecidableEq, Repr

namespace MotionControl

/-- The motion-control State enum of src/motion_control/state.rs.  Each
non-Invalid variant holds the driver and timer resources, either directly or
inside the single future it carries. -/
inductive State (Driver Timer Delay : Type) : Type where
  | Idle (driver : Driver) (timer : Timer)
  | SetDirection (future : SetDirectionFuture Driver Timer)
  | Step (future : StepFuture Driver Timer) (delay : Delay)
  | StepDelay (driver : Driver) (timer : Timer)
  | Invalid
deriving DecidableEq, Repr

/-- The caller-visible variables passed to update by mutable reference:
the pending direction request, the motion profile (embedded as the list of
delay values it has yet to yield), the step counter, and the current
direction.  The profile's next_delay operation is consuming the head of the
list. -/
structure Vars (Delay : Type) : Type where
  new_motion : Option Direction
  profile : List Delay
  current_step : Int
  current_direction : Direction
deriving DecidableEq, Repr

/-- The environment of one update call: the step future's hardware call sites,
the direction future's hardware call sites, the delay-to-ticks conversion of
the Convert argument, the timer start for the remaining step delay, and the
timer wait of the StepDelay state.  Each field is queried at most once per
call. -/
structure Env (Delay Ticks ESd ESt ENs ETim ECv : Type) : Type where
  stepHw : StepHw ESt ENs ETim Ticks
  dirHw : DirHw ESd ENs ETim Ticks
  delayToTicks : Delay → Except ECv Ticks
  timerStartDelay : Ticks → Option ETim
  timerWaitDelay : NbResult ETim

instance [DecidableEq ε] [DecidableEq α] : DecidableEq (Except ε α) := fun x y =>
  match x, y with
  | .error a, .error b =>
    if h : a = b then .isTrue (h ▸ rfl) else .isFalse (fun he => h (Except.error.inj he))
  | .ok a, .ok b =>
    if h : a = b then .isTrue (h ▸ rfl) else .isFalse (fun he => h (Except.ok.inj he))
  | .error _, .ok _ => .isFalse (fun he => Except.noConfusion he)
  | .ok _, .error _ => .isFalse (fun he => Except.noConfusion he)

/-- The pair returned by one update call (together with the updated
caller-visible variables), or the panic raised from the Invalid state. -/
inductive UpdRet (Driver Timer Delay ESd ESt ENs ETim ECv : Type) : Type where
  | ret (res : Except (Error ESd ESt ENs ETim ECv) Bool)
      (state : State Driver Timer Delay) (vars : Vars Delay)
  | panicked (msg : String)
deriving DecidableEq, Repr

/-- The delay_left function of src/motion_control/state.rs: convert the
profile delay to ticks, convert the pulse length (nanoseconds) to ticks, and
return their difference, tagging which of the two conversions failed. -/
def delay_left [Sub Ticks] (delay : Delay) (pulse_length : Nat)
    (delayToTicks : Delay → Except ECv Ticks) (nsToTicks : Nat → Except ENs Ticks) :
    Except (TimeConversionError ENs ECv) Ticks :=
  match delayToTicks delay with
  | .error err => .error (.DelayToTicks err)
  | .ok delay =>
    match nsToTicks pulse_length with
    | .error err => .error (.NanosecondsToTicks err)
    | .ok pulse_length => .ok (delay - pulse_length)

/-- The update function of src/motion_control/state.rs, embedded with explicit
fuel for its inner loop (the loop always returns within a bounded number of
iterations; see updateGo_isSome).  Each loop arm mirrors the corresponding
match arm of the source: the Idle arm consumes a pending request or asks the
profile for the next delay, the SetDirection and Step arms poll the inner
future, the StepDelay arm polls the timer, and the Invalid arm panics. -/
def updateGo [Sub Ticks] (fuel : Nat) (env : Env Delay Ticks ESd ESt ENs ETim ECv)
    (state : State Driver Timer Delay) (v : Vars Delay) :
    Option (UpdRet Driver Timer Delay ESd ESt ENs ETim ECv) :=
  match fuel with
  | 0 => none
  | fuel + 1 =>
    match state with
    | .Idle driver timer =>
      match v.new_motion with
      | some direction =>
        if direction = v.current_direction then
          updateGo fuel env (.Idle driver timer) { v with new_motion := none }
        else
          updateGo fuel env
            (.SetDirection (SetDirectionFuture.new direction driver timer))
            { v with new_motion := none, current_direction := direction }
      | none =>
        match v.profile with
        | delay :: rest =>
          updateGo fuel env (.Step (StepFuture.new driver timer) delay)
            { v with profile := rest }
        | [] => some (.ret (.ok false) (.Idle driver timer) v)
    | .SetDirection future =>
      match SetDirectionFuture.poll env.dirHw future with
      | (.Ready (.ok _), future') =>
        match SetDirectionFuture.release future' with
        | (driver, timer) => updateGo fuel env (.Idle driver timer) v
      | (.Ready (.error err), future') =>
        some (.ret (.error (.SetDirection err)) (.SetDirection future') v)
      | (.Pending, future') =>
        some (.ret (.ok true) (.SetDirection future') v)
    | .Step future delay =>
      match StepFuture.poll env.stepHw future with
      | (.Ready (.ok _), future', _) =>
        let v' := { v with current_step := v.current_step + v.current_direction.toInt }
        match StepFuture.release future' with
        | (driver, timer) =>
          match delay_left delay env.stepHw.pulseLength env.delayToTicks
              env.stepHw.nsToTicks with
          | .ok dl =>
            match env.timerStartDelay dl with
            | some err => some (.ret (.error (.StepDelay err)) (.Idle driver timer) v')
            | none => updateGo fuel env (.StepDelay driver timer) v'
          | .error err =>
            some (.ret (.error (.TimeConversion err)) (.Idle driver timer) v')
      | (.Ready (.error err), future', _) =>
        some (.ret (.error (.Step err)) (.Step future' delay) v)
      | (.Pending, future', _) =>
        some (.ret (.ok true) (.Step future' delay) v)
    | .StepDelay driver timer =>
      match env.timerWaitDelay with
      | .ok => updateGo fuel env (.Idle driver timer) v
      | .wouldBlock => some (.ret (.ok true) (.StepDelay driver timer) v)
      | .other err => some (.ret (.error (.StepDelay err)) (.StepDelay driver timer) v)
    | .Invalid => some (.panicked "Invalid internal state, caused by a previous panic.")

/-- One call of the update operation.  Fuel 8 exceeds the longest chain of
loop iterations a single call can take (see updateGo_isSome). -/
def update [Sub Ticks] (env : Env Delay Ticks ESd ESt ENs ETim ECv)
    (state : State Driver Timer Delay) (v : Vars Delay) :
    Option (UpdRet Driver Timer Delay ESd ESt ENs ETim ECv) :=
  updateGo 8 env state v

/-- The driver and timer resources held by a state: each non-Invalid variant
holds exactly one driver and one timer, directly or inside its future. -/
def State.resources : State Driver Timer Delay → Option (Driver × Timer)
  | .Idle driver timer => some (driver, timer)
  | .SetDirection future => some (future.driver, future.timer)
  | .Step future _ => some (future.driver, future.timer)
  | .StepDelay driver timer => some (driver, timer)
  | .Invalid => none

/-- Concrete step-hardware environment in which every operation succeeds,
used to evaluate the machine at concrete inputs. -/
def okStepHw : StepHw Nat Nat Nat Nat :=
  { stepAccInitial := none, setHigh := none, nsToTicks := fun n => .ok n,
    timerStartPulse := fun _ => none, timerWaitStep := .ok,
    stepAccPulseEnd := none, setLow := none, pulseLength := 100 }

/-- Concrete direction-hardware environment in which every operation
succeeds. -/
def okDirHw : DirHw Nat Nat Nat Nat :=
  { dirAcc := none, dirSet := none, nsToTicks := fun n => .ok n,
    timerStartSetup := fun _ => none, timerWaitSetup := .ok, setupTime := 50 }

/-- Concrete update environment in which every hardware operation succeeds and
both timers are expired whenever they are polled. -/
def okEnv : Env Nat Nat Nat Nat Nat Nat Nat :=
  { stepHw := okStepHw, dirHw := okDirHw, delayToTicks := fun d => .ok d,
    timerStartDelay := fun _ => none, timerWaitDelay := .ok }

/-- Whether an update call returned normally (as opposed to panicking). -/
def UpdRet.isRet : UpdRet Driver Timer Delay ESd ESt ENs ETim ECv → Bool
  | .ret _ _ _ => true
  | .panicked _ => false

end MotionControl

/-- C9: a StepFuture in the Finished phase reports Ready success when polled,
returns the future unchanged (so re-polling is idempotent), and performs no
pin or timer operation (its hardware action trace is empty).  Every poll that
moves a future to Finished produces exactly such a future, so all subsequent
polls behave this way. -/
theorem c9_step_future_finished_idempotent (hw : StepHw ESt ENs ETim Ticks)
    (driver : Driver) (timer : Timer) :
    StepFuture.poll hw ⟨driver, timer, .Finished⟩ =
      (.Ready (.ok ()), (⟨driver, timer, .Finished⟩ : StepFuture Driver Timer),
        ([] : List HwAction)) := rfl

/-- Polling a step future never changes which driver and timer it owns: only
the internal phase field is updated. -/
theorem step_poll_resources (hw : StepHw ESt ENs ETim Ticks)
    (f f' : StepFuture Driver Timer) (p : Poll (Except (SignalError ESt ESt ENs ETim) Unit))
    (tr : List HwAction) (h : StepFuture.poll hw f = (p, f', tr)) :
    f'.driver = f.driver ∧ f'.timer = f.timer := by
  obtain ⟨d, t, s⟩ := f
  cases s <;> simp only [StepFuture.poll] at h <;> (repeat' split at h) <;>
    (simp only [Prod.mk.injEq] at h; obtain ⟨-, h2, -⟩ := h; subst h2; exact ⟨rfl, rfl⟩)

/-- Polling a direction future never changes which driver and timer it owns:
only the internal phase field is updated. -/
theorem dir_poll_resources (hw : DirHw ESd ENs ETim Ticks)
    (f f' : SetDirectionFuture Driver Timer)
    (p : Poll (Except (SignalError ESd ESd ENs ETim) Unit))
    (h : SetDirectionFuture.poll hw f = (p, f')) :
    f'.driver = f.driver ∧ f'.timer = f.timer := by
  obtain ⟨dir, d, t, s⟩ := f
  cases s <;> simp only [SetDirectionFuture.poll] at h <;> (repeat' split at h) <;>
    (simp only [Prod.mk.injEq] at h; obtain ⟨-, h2⟩ := h; subst h2; exact ⟨rfl, rfl⟩)

/-- An erroring poll of a step future leaves the future exactly as it was,
except that a timer wait error (reported in the PulseStarted phase) advances
the phase to Finished before the error is returned. -/
theorem step_poll_error_state (hw : StepHw ESt ENs ETim Ticks)
    (f f' : StepFuture Driver Timer) (tr : List HwAction)
    (e : SignalError ESt ESt ENs ETim)
    (h : StepFuture.poll hw f = (.Ready (.error e), f', tr)) :
    f' = f ∨ ∃ te, e = .Timer te ∧ f' = { f with state := .Finished } := by
  obtain ⟨d, t, s⟩ := f
  cases s <;> simp only [StepFuture.poll] at h <;> (repeat' split at h) <;>
    simp only [Prod.mk.injEq, Poll.Ready.injEq, Except.error.injEq] at h
  all_goals first
    | (obtain ⟨he, hf, -⟩ := h; subst he; subst hf; left; rfl)
    | (obtain ⟨he, hf, -⟩ := h; subst he; subst hf; right; exact ⟨_, rfl, rfl⟩)
    | exact absurd h (by simp)

/-- An erroring poll of a direction future leaves the future exactly as it
was, except that a timer wait error advances the phase to Finished before the
error is returned. -/
theorem dir_poll_error_state (hw : DirHw ESd ENs ETim Ticks)
    (f f' : SetDirectionFuture Driver Timer) (e : SignalError ESd ESd ENs ETim)
    (h : SetDirectionFuture.poll hw f = (.Ready (.error e), f')) :
    f' = f ∨ ∃ te, e = .Timer te ∧ f' = { f with state := .Finished } := by
  obtain ⟨dir, d, t, s⟩ := f
  cases s <;> simp only [SetDirectionFuture.poll] at h <;> (repeat' split at h) <;>
    simp only [Prod.mk.injEq, Poll.Ready.injEq, Except.error.injEq] at h
  all_goals first
    | (obtain ⟨he, hf⟩ := h; subst he; subst hf; left; rfl)
    | (obtain ⟨he, hf⟩ := h; subst he; subst hf; right; exact ⟨_, rfl, rfl⟩)
    | exact absurd h (by simp)

namespace MotionControl

/-- C7: the time-conversion function delay_left returns exactly
ticks of the delay minus ticks of the pulse length when both conversions
succeed; when the delay-to-ticks conversion fails it returns the DelayToTicks
error tag; when the delay conversion succeeds but the nanoseconds-to-ticks
conversion fails it returns the distinct NanosecondsToTicks error tag. -/
theorem c7_delay_left_conversion [Sub Ticks] (delay : Delay) (pl : Nat)
    (dtt : Delay → Except ECv Ticks) (ntt : Nat → Except ENs Ticks) :
    (∀ td tp, dtt delay = .ok td → ntt pl = .ok tp →
      delay_left delay pl dtt ntt = .ok (td - tp)) ∧
    (∀ e, dtt delay = .error e →
      delay_left delay pl dtt ntt = .error (.DelayToTicks e)) ∧
    (∀ td e, dtt delay = .ok td → ntt pl = .error e →
      delay_left delay pl dtt ntt = .error (.NanosecondsToTicks e)) := by
  refine ⟨?_, ?_, ?_⟩
  · intro td tp h1 h2
    simp [delay_left, h1, h2]
  · intro e h1
    simp [delay_left, h1]
  · intro td e h1 h2
    simp [delay_left, h1, h2]

/-- Witness for C7: at delay 1000 and pulse length 100 with identity
conversions, delay_left yields 900 ticks; with a failing delay conversion it
yields the DelayToTicks tag; with a failing nanoseconds conversion it yields
the NanosecondsToTicks tag. -/
theorem c7_delay_left_conversion_witness :
    delay_left (1000 : Nat) 100 (fun d => (.ok d : Except Nat Nat))
      (fun n => (.ok n : Except Nat Nat)) = .ok 900 ∧
    delay_left (1000 : Nat) 100 (fun _ => (.error 7 : Except Nat Nat))
      (fun n => (.ok n : Except Nat Nat)) = .error (.DelayToTicks 7) ∧
    delay_left (1000 : Nat) 100 (fun d => (.ok d : Except Nat Nat))
      (fun _ => (.error 3 : Except Nat Nat)) = .error (.NanosecondsToTicks 3) :=
  ⟨(c7_delay_left_conversion 1000 100 _ _).1 1000 100 rfl rfl,
   (c7_delay_left_conversion 1000 100 _ _).2.1 7 rfl,
   (c7_delay_left_conversion 1000 100 _ _).2.2 1000 3 rfl rfl⟩

/-- C4 counterexample: at a concrete input, a call to update in the Invalid
state panics with a fixed message instead of returning an unrecoverable-fault
error value to the caller: the result is not a normal return at all. -/
theorem c4_invalid_counterexample :
    update okEnv (.Invalid : State Nat Nat Nat) ⟨none, [], 0, .Forward⟩ =
      some (.panicked "Invalid internal state, caused by a previous panic.") ∧
    Option.map UpdRet.isRet
      (update okEnv (.Invalid : State Nat Nat Nat) ⟨none, [], 0, .Forward⟩) =
      some false :=
  ⟨rfl, rfl⟩

/-- C4 amended: once the machine is in the Invalid state, every call to update
panics with the fixed message rather than returning; it reports no error value
and produces no successor state, so the machine never transitions out of
Invalid.  The panic is defined behavior, not undefined behavior. -/
theorem c4_invalid_always_panics [Sub Ticks]
    (env : Env Delay Ticks ESd ESt ENs ETim ECv) (v : Vars Delay) :
    update env (.Invalid : State Driver Timer Delay) v =
      some (.panicked "Invalid internal state, caused by a previous panic.") := rfl

/-- Polling a freshly created step future returns to the caller in one loop
iteration (its first poll never reports Ready success), so the result of the
Step arm on a fresh future does not depend on the remaining fuel. -/
theorem updateGo_step_new_fuel [Sub Ticks] (env : Env Delay Ticks ESd ESt ENs ETim ECv)
    (driver : Driver) (timer : Timer) (delay : Delay) (v : Vars Delay) (m n : Nat) :
    updateGo (m+1) env (.Step (StepFuture.new driver timer) delay) v =
      updateGo (n+1) env (.Step (StepFuture.new driver timer) delay) v := by
  simp only [updateGo, StepFuture.poll, StepFuture.new]
  cases h1 : env.stepHw.stepAccInitial <;> simp only [h1]
  cases h2 : env.stepHw.setHigh <;> simp only [h2]
  cases h3 : env.stepHw.nsToTicks env.stepHw.pulseLength <;> simp only [h3]
  cases h4 : env.stepHw.timerStartPulse _ <;> simp only [h4]

/-- The Idle arm with no pending request either reports true idleness or
starts a step whose first poll returns to the caller, so its result does not
depend on the remaining fuel. -/
theorem updateGo_idle_none_fuel [Sub Ticks] (env : Env Delay Ticks ESd ESt ENs ETim ECv)
    (driver : Driver) (timer : Timer) (p : List Delay) (c : Int) (dir : Direction)
    (m n : Nat) :
    updateGo (m+2) env (.Idle driver timer) ⟨none, p, c, dir⟩ =
      updateGo (n+2) env (.Idle driver timer) ⟨none, p, c, dir⟩ := by
  simp only [updateGo]
  cases p with
  | nil => rfl
  | cons d l => exact updateGo_step_new_fuel env driver timer d ⟨none, l, c, dir⟩ m n

/-- C5 counterexample: in the Idle state with a pending request equal to the
current direction and a profile that yields a delay, the call is not a no-op:
the machine consumes the request and then starts the next step, returning busy
with the Step state, which differs from the Idle state it started in. -/
theorem c5_same_direction_counterexample :
    update okEnv (.Idle 7 9) ⟨some .Forward, [1000], 5, .Forward⟩ =
      some (.ret (.ok true) (.Step ⟨7, 9, .PulseStarted⟩ 1000) ⟨none, [], 5, .Forward⟩) ∧
    (.Step (⟨7, 9, .PulseStarted⟩ : StepFuture Nat Nat) (1000 : Nat) ≠
      (.Idle 7 9 : State Nat Nat Nat)) :=
  ⟨rfl, by decide⟩

/-- C5 amended: a pending request equal to the current direction is consumed
(cleared) with no effect on the step counter or the current direction, and the
call proceeds exactly as if no request had been pending; in particular, when
the profile yields no delay, the state is unchanged (Idle with the same
resources) and not-busy is reported. -/
theorem c5_same_direction_noop [Sub Ticks] (env : Env Delay Ticks ESd ESt ENs ETim ECv)
    (driver : Driver) (timer : Timer) (p : List Delay) (c : Int) (dir : Direction) :
    update env (.Idle driver timer) ⟨some dir, p, c, dir⟩ =
      update env (.Idle driver timer) ⟨none, p, c, dir⟩ ∧
    update env (.Idle driver timer) ⟨some dir, ([] : List Delay), c, dir⟩ =
      some (.ret (.ok false) (.Idle driver timer) ⟨none, [], c, dir⟩) := by
  constructor
  · cases dir <;> exact updateGo_idle_none_fuel env driver timer p c _ 5 6
  · cases dir <;> rfl

/-- Concrete environment in which pins and timers work but the delay-to-ticks
conversion fails with error code 42. -/
def convFailEnv : Env Nat Nat Nat Nat Nat Nat Nat :=
  { okEnv with delayToTicks := fun _ => .error 42 }

/-- Concrete environment in which everything works except starting the timer
for the remaining step delay, which fails with error code 8. -/
def startFailEnv : Env Nat Nat Nat Nat Nat Nat Nat :=
  { okEnv with timerStartDelay := fun _ => some 8 }

/-- C6: whenever the step pulse completes (the step future's poll reports
Ready success) but the subsequent duration conversion fails, update returns
the conversion error exactly once and the returned state is Idle holding both
resources of the polled future, rather than remaining stuck in Step. -/
theorem c6_conversion_failure_idles [Sub Ticks] (env : Env Delay Ticks ESd ESt ENs ETim ECv)
    (f f' : StepFuture Driver Timer) (tr : List HwAction) (delay : Delay) (v : Vars Delay)
    (hpoll : StepFuture.poll env.stepHw f = (.Ready (.ok ()), f', tr))
    (te : TimeConversionError ENs ECv)
    (hconv : delay_left delay env.stepHw.pulseLength env.delayToTicks env.stepHw.nsToTicks =
      .error te) :
    update env (.Step f delay) v =
      some (.ret (.error (.TimeConversion te)) (.Idle f.driver f.timer)
        { v with current_step := v.current_step + v.current_direction.toInt }) := by
  obtain ⟨h1, h2⟩ := step_poll_resources env.stepHw f f' _ _ hpoll
  show updateGo (7+1) env (.Step f delay) v = _
  simp only [updateGo, hpoll, StepFuture.release, hconv, h1, h2]

/-- Witness for C6: with a completed pulse and a failing conversion, the call
returns the DelayToTicks conversion error and the Idle state holding driver 7
and timer 9. -/
theorem c6_conversion_failure_idles_witness :
    update convFailEnv (.Step ⟨7, 9, .Finished⟩ 1000) ⟨none, [], 5, .Forward⟩ =
      some (.ret (.error (.TimeConversion (.DelayToTicks 42))) (.Idle 7 9)
        ⟨none, [], 5 + Direction.Forward.toInt, .Forward⟩) :=
  c6_conversion_failure_idles convFailEnv ⟨7, 9, .Finished⟩ ⟨7, 9, .Finished⟩ [] 1000
    ⟨none, [], 5, .Forward⟩ rfl (.DelayToTicks 42) rfl

/-- C10: when the step pulse completes but the duration conversion or the
start of the trailing delay timer fails, the step counter keeps the increment
made for the completed pulse: update returns the error with state Idle, the
counter has been increased by the direction unit, and the pending request, the
profile, and the current direction are unmodified. -/
theorem c10_counter_kept_on_delay_errors [Sub Ticks]
    (env : Env Delay Ticks ESd ESt ENs ETim ECv)
    (f f' : StepFuture Driver Timer) (tr : List HwAction) (delay : Delay) (v : Vars Delay)
    (hpoll : StepFuture.poll env.stepHw f = (.Ready (.ok ()), f', tr)) :
    (∀ te, delay_left delay env.stepHw.pulseLength env.delayToTicks env.stepHw.nsToTicks =
        .error te →
      update env (.Step f delay) v =
        some (.ret (.error (.TimeConversion te)) (.Idle f.driver f.timer)
          { v with current_step := v.current_step + v.current_direction.toInt })) ∧
    (∀ dl te, delay_left delay env.stepHw.pulseLength env.delayToTicks env.stepHw.nsToTicks =
        .ok dl →
      env.timerStartDelay dl = some te →
      update env (.Step f delay) v =
        some (.ret (.error (.StepDelay te)) (.Idle f.driver f.timer)
          { v with current_step := v.current_step + v.current_direction.toInt })) := by
  obtain ⟨h1, h2⟩ := step_poll_resources env.stepHw f f' _ _ hpoll
  constructor
  · intro te hconv
    show updateGo (7+1) env (.Step f delay) v = _
    simp only [updateGo, hpoll, StepFuture.release, hconv, h1, h2]
  · intro dl te hdl hstart
    show updateGo (7+1) env (.Step f delay) v = _
    simp only [updateGo, hpoll, StepFuture.release, hdl, hstart, h1, h2]

/-- Witness for C10: on both failing paths the counter moves from 5 to 6 while
the pending Backward request, the profile, and the Forward direction are kept. -/
theorem c10_counter_kept_on_delay_errors_witness :
    update convFailEnv (.Step ⟨7, 9, .Finished⟩ 1000) ⟨some .Backward, [44], 5, .Forward⟩ =
      some (.ret (.error (.TimeConversion (.DelayToTicks 42))) (.Idle 7 9)
        ⟨some .Backward, [44], 5 + Direction.Forward.toInt, .Forward⟩) ∧
    update startFailEnv (.Step ⟨7, 9, .Finished⟩ 1000) ⟨some .Backward, [44], 5, .Forward⟩ =
      some (.ret (.error (.StepDelay 8)) (.Idle 7 9)
        ⟨some .Backward, [44], 5 + Direction.Forward.toInt, .Forward⟩) :=
  ⟨(c10_counter_kept_on_delay_errors convFailEnv ⟨7, 9, .Finished⟩ ⟨7, 9, .Finished⟩ [] 1000
      ⟨some .Backward, [44], 5, .Forward⟩ rfl).1 (.DelayToTicks 42) rfl,
   (c10_counter_kept_on_delay_errors startFailEnv ⟨7, 9, .Finished⟩ ⟨7, 9, .Finished⟩ [] 1000
      ⟨some .Backward, [44], 5, .Forward⟩ rfl).2 900 8 rfl rfl⟩

/-- Concrete environment in which the step pulse timer wait fails with error
code 3. -/
def waitFailEnv : Env Nat Nat Nat Nat Nat Nat Nat :=
  { okEnv with stepHw := { okStepHw with timerWaitStep := .other 3 } }

/-- Concrete environment in which the step-delay timer wait fails with error
code 5. -/
def waitDelayFailEnv : Env Nat Nat Nat Nat Nat Nat Nat :=
  { okEnv with timerWaitDelay := .other 5 }

/-- C3 counterexample: at a concrete input, a timer error reported while the
step future is waiting out the pulse makes update return the error with a
Step state whose contained future has moved to the Finished phase, which is
not the same future that was being polled (it was in PulseStarted). -/
theorem c3_same_state_counterexample :
    update waitFailEnv (.Step ⟨7, 9, .PulseStarted⟩ 1000) ⟨none, [], 0, .Forward⟩ =
      some (.ret (.error (.Step (.Timer 3))) (.Step ⟨7, 9, .Finished⟩ 1000)
        ⟨none, [], 0, .Forward⟩) ∧
    ((⟨7, 9, .Finished⟩ : StepFuture Nat Nat) ≠ ⟨7, 9, .PulseStarted⟩) :=
  ⟨rfl, by decide⟩

/-- C3 amended: when a pin or timer error is reported while a sub-future is in
flight, update returns that error and the returned state is the same variant
holding the same driver and timer resources; the contained future is the very
one that was polled, and it is unchanged except that a timer wait error
advances its phase to Finished before the error is returned; the StepDelay
state is preserved exactly on a timer wait error.  The caller can retry the
same poll. -/
theorem c3_error_preserves_enclosing_state [Sub Ticks]
    (env : Env Delay Ticks ESd ESt ENs ETim ECv) (v : Vars Delay) :
    (∀ (f f' : SetDirectionFuture Driver Timer) e,
      SetDirectionFuture.poll env.dirHw f = (.Ready (.error e), f') →
      update env (.SetDirection f) v =
        some (.ret (.error (.SetDirection e)) (.SetDirection f') v) ∧
      f'.driver = f.driver ∧ f'.timer = f.timer ∧
      (f' = f ∨ ∃ te, e = .Timer te ∧ f' = { f with state := .Finished })) ∧
    (∀ (f f' : StepFuture Driver Timer) tr (delay : Delay) e,
      StepFuture.poll env.stepHw f = (.Ready (.error e), f', tr) →
      update env (.Step f delay) v =
        some (.ret (.error (.Step e)) (.Step f' delay) v) ∧
      f'.driver = f.driver ∧ f'.timer = f.timer ∧
      (f' = f ∨ ∃ te, e = .Timer te ∧ f' = { f with state := .Finished })) ∧
    (∀ (driver : Driver) (timer : Timer) te, env.timerWaitDelay = .other te →
      update env (.StepDelay driver timer) v =
        some (.ret (.error (.StepDelay te)) (.StepDelay driver timer) v)) := by
  refine ⟨?_, ?_, ?_⟩
  · intro f f' e hpoll
    obtain ⟨h1, h2⟩ := dir_poll_resources env.dirHw f f' _ hpoll
    refine ⟨?_, h1, h2, dir_poll_error_state env.dirHw f f' e hpoll⟩
    show updateGo (7+1) env (.SetDirection f) v = _
    simp only [updateGo, hpoll]
  · intro f f' tr delay e hpoll
    obtain ⟨h1, h2⟩ := step_poll_resources env.stepHw f f' _ _ hpoll
    refine ⟨?_, h1, h2, step_poll_error_state env.stepHw f f' tr e hpoll⟩
    show updateGo (7+1) env (.Step f delay) v = _
    simp only [updateGo, hpoll]
  · intro driver timer te hwait
    show updateGo (7+1) env (.StepDelay driver timer) v = _
    simp only [updateGo, hwait]

/-- Witness for C3 amended: concrete instances of the step-pulse timer error
(the future moves to Finished, resources kept) and of the step-delay timer
error (state preserved exactly). -/
theorem c3_error_preserves_enclosing_state_witness :
    (update waitFailEnv (.Step ⟨7, 9, .PulseStarted⟩ 1000) ⟨none, [], 0, .Forward⟩ =
      some (.ret (.error (.Step (.Timer 3))) (.Step ⟨7, 9, .Finished⟩ 1000)
        ⟨none, [], 0, .Forward⟩) ∧
      (7 : Nat) = 7 ∧ (9 : Nat) = 9 ∧
      ((⟨7, 9, .Finished⟩ : StepFuture Nat Nat) = ⟨7, 9, .PulseStarted⟩ ∨
        ∃ te, (.Timer 3 : SignalError Nat Nat Nat Nat) = .Timer te ∧
          (⟨7, 9, .Finished⟩ : StepFuture Nat Nat) = ⟨7, 9, .Finished⟩)) ∧
    update waitDelayFailEnv (.StepDelay 7 9) ⟨none, [], 0, .Forward⟩ =
      some (.ret (.error (.StepDelay 5)) (.StepDelay 7 9) ⟨none, [], 0, .Forward⟩) :=
  ⟨(c3_error_preserves_enclosing_state waitFailEnv ⟨none, [], 0, .Forward⟩).2.1
      ⟨7, 9, .PulseStarted⟩ ⟨7, 9, .Finished⟩ [.timerWait] 1000 (.Timer 3) rfl,
   (c3_error_preserves_enclosing_state waitDelayFailEnv ⟨none, [], 0, .Forward⟩).2.2
      7 9 5 rfl⟩

/-- The first poll of a freshly created direction future always returns to
the caller with the SetDirection state: it either reports busy (having started
the setup wait) or reports an error leaving the future in its Initial phase;
it never completes, so no step can be attempted in the same call. -/
theorem updateGo_dir_new [Sub Ticks] (env : Env Delay Ticks ESd ESt ENs ETim ECv)
    (d : Direction) (driver : Driver) (timer : Timer) (v : Vars Delay) (n : Nat) :
    ∃ (res : Except (Error ESd ESt ENs ETim ECv) Bool)
      (f' : SetDirectionFuture Driver Timer),
      updateGo (n+1) env (.SetDirection (SetDirectionFuture.new d driver timer)) v =
        some (.ret res (.SetDirection f') v) ∧
      f'.direction = d ∧ f'.driver = driver ∧ f'.timer = timer ∧
      f'.state ≠ .Finished ∧ res ≠ .ok false := by
  simp only [updateGo, SetDirectionFuture.poll, SetDirectionFuture.new]
  rcases h1 : env.dirHw.dirAcc with _ | e
  case some =>
    exact ⟨.error (.SetDirection (.PinUnavailable e)), ⟨d, driver, timer, .Initial⟩,
      by simp [h1], rfl, rfl, rfl, by simp, by simp⟩
  rcases h2 : env.dirHw.dirSet with _ | e
  case some =>
    exact ⟨.error (.SetDirection (.Pin e)), ⟨d, driver, timer, .Initial⟩,
      by simp [h1, h2], rfl, rfl, rfl, by simp, by simp⟩
  rcases h3 : env.dirHw.nsToTicks env.dirHw.setupTime with e | tk
  case error =>
    exact ⟨.error (.SetDirection (.NanosecondsToTicks e)), ⟨d, driver, timer, .Initial⟩,
      by simp [h1, h2, h3], rfl, rfl, rfl, by simp, by simp⟩
  rcases h4 : env.dirHw.timerStartSetup tk with _ | e
  case some =>
    exact ⟨.error (.SetDirection (.Timer e)), ⟨d, driver, timer, .Initial⟩,
      by simp [h1, h2, h3, h4], rfl, rfl, rfl, by simp, by simp⟩
  exact ⟨.ok true, ⟨d, driver, timer, .DirectionSet⟩,
    by simp [h1, h2, h3, h4], rfl, rfl, rfl, by simp, by simp⟩

/-- C8: a call to update in the Idle state with a pending request for a
direction different from the current one sets the current direction to the
requested direction immediately, before the direction-change future has
completed (the returned future is not Finished and the call does not report
idle), and the machine enters exactly one SettingDirection phase before any
next step is attempted: the returned state is SetDirection over a future
holding both resources, the step counter is untouched, and the profile has not
been consulted. -/
theorem c8_new_direction_optimistic [Sub Ticks]
    (env : Env Delay Ticks ESd ESt ENs ETim ECv)
    (driver : Driver) (timer : Timer) (p : List Delay) (c : Int)
    (d cur : Direction) (h : d ≠ cur) :
    ∃ (res : Except (Error ESd ESt ENs ETim ECv) Bool)
      (f' : SetDirectionFuture Driver Timer),
      update env (.Idle driver timer) ⟨some d, p, c, cur⟩ =
        some (.ret res (.SetDirection f') ⟨none, p, c, d⟩) ∧
      f'.direction = d ∧ f'.driver = driver ∧ f'.timer = timer ∧
      f'.state ≠ .Finished ∧ res ≠ .ok false := by
  have step1 : update env (.Idle driver timer) ⟨some d, p, c, cur⟩ =
      updateGo 7 env (.SetDirection (SetDirectionFuture.new d driver timer))
        ⟨none, p, c, d⟩ := by
    show updateGo (7+1) env _ _ = _
    simp only [updateGo]
    rw [if_neg h]
  rw [step1]
  exact updateGo_dir_new env d driver timer ⟨none, p, c, d⟩ 6

/-- Witness for C8: requesting Backward while moving Forward turns the
current direction to Backward at once and ends the call in a SettingDirection
phase with the profile delay 1000 still unconsumed. -/
theorem c8_new_direction_optimistic_witness :
    ∃ (res : Except (Error Nat Nat Nat Nat Nat) Bool)
      (f' : SetDirectionFuture Nat Nat),
      update okEnv (.Idle 7 9) ⟨some .Backward, [1000], 5, .Forward⟩ =
        some (.ret res (.SetDirection f') ⟨none, [1000], 5, .Backward⟩) ∧
      f'.direction = .Backward ∧ f'.driver = 7 ∧ f'.timer = 9 ∧
      f'.state ≠ .Finished ∧ res ≠ .ok false :=
  c8_new_direction_optimistic okEnv 7 9 [1000] 5 .Backward .Forward (by decide)

/-- Resource accounting for the Step arm on a fresh future: the first poll
returns to the caller with a Step state still holding the original driver and
timer. -/
theorem pres_step_new [Sub Ticks] (env : Env Delay Ticks ESd ESt ENs ETim ECv)
    (driver : Driver) (timer : Timer) (delay : Delay) (v : Vars Delay) (n : Nat) :
    ∃ (res : Except (Error ESd ESt ENs ETim ECv) Bool)
      (s' : State Driver Timer Delay) (v' : Vars Delay),
      updateGo (n+1) env (.Step (StepFuture.new driver timer) delay) v =
        some (.ret res s' v') ∧
      State.resources s' = some (driver, timer) := by
  simp only [updateGo, StepFuture.poll, StepFuture.new]
  rcases h1 : env.stepHw.stepAccInitial with _ | e
  case some =>
    exact ⟨.error (.Step (.PinUnavailable e)), .Step ⟨driver, timer, .Initial⟩ delay, v,
      by simp [h1], rfl⟩
  rcases h2 : env.stepHw.setHigh with _ | e
  case some =>
    exact ⟨.error (.Step (.Pin e)), .Step ⟨driver, timer, .Initial⟩ delay, v,
      by simp [h1, h2], rfl⟩
  rcases h3 : env.stepHw.nsToTicks env.stepHw.pulseLength with e | tk
  case error =>
    exact ⟨.error (.Step (.NanosecondsToTicks e)), .Step ⟨driver, timer, .Initial⟩ delay, v,
      by simp [h1, h2, h3], rfl⟩
  rcases h4 : env.stepHw.timerStartPulse tk with _ | e
  case some =>
    exact ⟨.error (.Step (.Timer e)), .Step ⟨driver, timer, .Initial⟩ delay, v,
      by simp [h1, h2, h3, h4], rfl⟩
  exact ⟨.ok true, .Step ⟨driver, timer, .PulseStarted⟩ delay, v,
    by simp [h1, h2, h3, h4], rfl⟩

/-- Resource accounting for the Idle arm with no pending request: the call
returns normally and the returned state holds the original driver and timer. -/
theorem pres_idle_none [Sub Ticks] (env : Env Delay Ticks ESd ESt ENs ETim ECv)
    (driver : Driver) (timer : Timer) (p : List Delay) (c : Int) (dir : Direction)
    (n : Nat) :
    ∃ (res : Except (Error ESd ESt ENs ETim ECv) Bool)
      (s' : State Driver Timer Delay) (v' : Vars Delay),
      updateGo (n+2) env (.Idle driver timer) ⟨none, p, c, dir⟩ =
        some (.ret res s' v') ∧
      State.resources s' = some (driver, timer) := by
  cases p with
  | nil => exact ⟨.ok false, .Idle driver timer, ⟨none, [], c, dir⟩, rfl, rfl⟩
  | cons dl l =>
    have h1 : updateGo (n+2) env (.Idle driver timer) ⟨none, dl :: l, c, dir⟩ =
        updateGo (n+1) env (.Step (StepFuture.new driver timer) dl) ⟨none, l, c, dir⟩ := rfl
    rw [h1]
    exact pres_step_new env driver timer dl ⟨none, l, c, dir⟩ n

/-- Resource accounting for the Idle arm with any pending request: the call
returns normally and the returned state holds the original driver and timer. -/
theorem pres_idle_any [Sub Ticks] (env : Env Delay Ticks ESd ESt ENs ETim ECv)
    (driver : Driver) (timer : Timer) (v : Vars Delay) (n : Nat) :
    ∃ (res : Except (Error ESd ESt ENs ETim ECv) Bool)
      (s' : State Driver Timer Delay) (v' : Vars Delay),
      updateGo (n+3) env (.Idle driver timer) v = some (.ret res s' v') ∧
      State.resources s' = some (driver, timer) := by
  obtain ⟨nm, p, c, dir⟩ := v
  cases nm with
  | none => exact pres_idle_none env driver timer p c dir (n+1)
  | some dd =>
    by_cases hd : dd = dir
    · subst hd
      cases dd with
      | Forward =>
        have h1 : updateGo (n+3) env (.Idle driver timer) ⟨some .Forward, p, c, .Forward⟩ =
            updateGo (n+2) env (.Idle driver timer)
              (⟨none, p, c, .Forward⟩ : Vars Delay) := rfl
        rw [h1]
        exact pres_idle_none env driver timer p c .Forward n
      | Backward =>
        have h1 : updateGo (n+3) env (.Idle driver timer) ⟨some .Backward, p, c, .Backward⟩ =
            updateGo (n+2) env (.Idle driver timer)
              (⟨none, p, c, .Backward⟩ : Vars Delay) := rfl
        rw [h1]
        exact pres_idle_none env driver timer p c .Backward n
    · have h1 : updateGo (n+3) env (.Idle driver timer) ⟨some dd, p, c, dir⟩ =
          updateGo (n+2) env
            (.SetDirection (SetDirectionFuture.new dd driver timer)) ⟨none, p, c, dd⟩ := by
        show updateGo ((n+2)+1) env _ _ = _
        simp only [updateGo]
        rw [if_neg hd]
      rw [h1]
      obtain ⟨res, f', heq, -, hdrv, htmr, -, -⟩ :=
        updateGo_dir_new env dd driver timer ⟨none, p, c, dd⟩ (n+1)
      exact ⟨res, .SetDirection f', ⟨none, p, c, dd⟩, heq,
        by simp [State.resources, hdrv, htmr]⟩

/-- Resource accounting for the StepDelay arm: the call returns normally and
the returned state holds the original driver and timer. -/
theorem pres_stepdelay [Sub Ticks] (env : Env Delay Ticks ESd ESt ENs ETim ECv)
    (driver : Driver) (timer : Timer) (v : Vars Delay) (n : Nat) :
    ∃ (res : Except (Error ESd ESt ENs ETim ECv) Bool)
      (s' : State Driver Timer Delay) (v' : Vars Delay),
      updateGo (n+4) env (.StepDelay driver timer) v = some (.ret res s' v') ∧
      State.resources s' = some (driver, timer) := by
  rcases hw : env.timerWaitDelay with _ | _ | e
  · have h1 : updateGo (n+4) env (.StepDelay driver timer) v =
        updateGo (n+3) env (.Idle driver timer) v := by
      show updateGo ((n+3)+1) env _ _ = _
      simp only [updateGo, hw]
    rw [h1]
    exact pres_idle_any env driver timer v n
  · exact ⟨.ok true, .StepDelay driver timer, v,
      by show updateGo ((n+3)+1) env _ _ = _; simp only [updateGo, hw], rfl⟩
  · exact ⟨.error (.StepDelay e), .StepDelay driver timer, v,
      by show updateGo ((n+3)+1) env _ _ = _; simp only [updateGo, hw], rfl⟩

/-- Resource accounting for the SetDirection arm: the call returns normally
and the returned state holds the driver and timer owned by the polled future. -/
theorem pres_sd_any [Sub Ticks] (env : Env Delay Ticks ESd ESt ENs ETim ECv)
    (f : SetDirectionFuture Driver Timer) (v : Vars Delay) (n : Nat) :
    ∃ (res : Except (Error ESd ESt ENs ETim ECv) Bool)
      (s' : State Driver Timer Delay) (v' : Vars Delay),
      updateGo (n+4) env (.SetDirection f) v = some (.ret res s' v') ∧
      State.resources s' = some (f.driver, f.timer) := by
  rcases hp : SetDirectionFuture.poll env.dirHw f with ⟨pr, f'⟩
  obtain ⟨hdrv, htmr⟩ := dir_poll_resources env.dirHw f f' pr hp
  cases pr with
  | Ready r =>
    cases r with
    | ok u =>
      have h1 : updateGo (n+4) env (.SetDirection f) v =
          updateGo (n+3) env (.Idle f'.driver f'.timer) v := by
        show updateGo ((n+3)+1) env _ _ = _
        simp only [updateGo, hp, SetDirectionFuture.release]
      rw [h1]
      obtain ⟨res, s', v', heq, hres⟩ := pres_idle_any env f'.driver f'.timer v n
      exact ⟨res, s', v', heq, by rw [hres, hdrv, htmr]⟩
    | error e =>
      exact ⟨.error (.SetDirection e), .SetDirection f', v,
        by show updateGo ((n+3)+1) env _ _ = _; simp only [updateGo, hp],
        by simp [State.resources, hdrv, htmr]⟩
  | Pending =>
    exact ⟨.ok true, .SetDirection f', v,
      by show updateGo ((n+3)+1) env _ _ = _; simp only [updateGo, hp],
      by simp [State.resources, hdrv, htmr]⟩

/-- Resource accounting for the Step arm: the call returns normally and the
returned state holds the driver and timer owned by the polled future. -/
theorem pres_step_any [Sub Ticks] (env : Env Delay Ticks ESd ESt ENs ETim ECv)
    (f : StepFuture Driver Timer) (delay : Delay) (v : Vars Delay) (n : Nat) :
    ∃ (res : Except (Error ESd ESt ENs ETim ECv) Bool)
      (s' : State Driver Timer Delay) (v' : Vars Delay),
      updateGo (n+5) env (.Step f delay) v = some (.ret res s' v') ∧
      State.resources s' = some (f.driver, f.timer) := by
  rcases hp : StepFuture.poll env.stepHw f with ⟨pr, f', tr⟩
  obtain ⟨hdrv, htmr⟩ := step_poll_resources env.stepHw f f' pr tr hp
  cases pr with
  | Ready r =>
    cases r with
    | ok u =>
      rcases hdl : delay_left delay env.stepHw.pulseLength env.delayToTicks
          env.stepHw.nsToTicks with te | dl
      · exact ⟨.error (.TimeConversion te), .Idle f'.driver f'.timer,
          { v with current_step := v.current_step + v.current_direction.toInt },
          by show updateGo ((n+4)+1) env _ _ = _;
             simp only [updateGo, hp, StepFuture.release, hdl],
          by simp [State.resources, hdrv, htmr]⟩
      · rcases hst : env.timerStartDelay dl with _ | e
        · have h1 : updateGo (n+5) env (.Step f delay) v =
              updateGo (n+4) env (.StepDelay f'.driver f'.timer)
                { v with current_step := v.current_step + v.current_direction.toInt } := by
            show updateGo ((n+4)+1) env _ _ = _
            simp only [updateGo, hp, StepFuture.release, hdl, hst]
          rw [h1]
          obtain ⟨res, s', v', heq, hres⟩ := pres_stepdelay env f'.driver f'.timer
            { v with current_step := v.current_step + v.current_direction.toInt } n
          exact ⟨res, s', v', heq, by rw [hres, hdrv, htmr]⟩
        · exact ⟨.error (.StepDelay e), .Idle f'.driver f'.timer,
            { v with current_step := v.current_step + v.current_direction.toInt },
            by show updateGo ((n+4)+1) env _ _ = _;
               simp only [updateGo, hp, StepFuture.release, hdl, hst],
            by simp [State.resources, hdrv, htmr]⟩
    | error e =>
      exact ⟨.error (.Step e), .Step f' delay, v,
        by show updateGo ((n+4)+1) env _ _ = _; simp only [updateGo, hp],
        by simp [State.resources, hdrv, htmr]⟩
  | Pending =>
    exact ⟨.ok true, .Step f' delay, v,
      by show updateGo ((n+4)+1) env _ _ = _; simp only [updateGo, hp],
      by simp [State.resources, hdrv, htmr]⟩

/-- C1: from any non-Invalid state holding the driver and timer resources,
update returns normally and the returned state again holds exactly those two
resources (directly in an Idle or StepDelay payload, or inside the single
future of a SetDirection or Step state): no transition duplicates or drops
them, and error returns pair the error with a state that still carries both. -/
theorem c1_resource_conservation [Sub Ticks] (env : Env Delay Ticks ESd ESt ENs ETim ECv)
    (s : State Driver Timer Delay) (v : Vars Delay) (d : Driver) (t : Timer)
    (h : State.resources s = some (d, t)) :
    ∃ (res : Except (Error ESd ESt ENs ETim ECv) Bool)
      (s' : State Driver Timer Delay) (v' : Vars Delay),
      update env s v = some (.ret res s' v') ∧
      State.resources s' = some (d, t) := by
  cases s with
  | Idle driver timer =>
    simp only [State.resources, Option.some.injEq, Prod.mk.injEq] at h
    obtain ⟨h1, h2⟩ := h
    subst h1; subst h2
    exact pres_idle_any env driver timer v 5
  | SetDirection f =>
    simp only [State.resources, Option.some.injEq, Prod.mk.injEq] at h
    obtain ⟨h1, h2⟩ := h
    rw [← h1, ← h2]
    exact pres_sd_any env f v 4
  | Step f delay =>
    simp only [State.resources, Option.some.injEq, Prod.mk.injEq] at h
    obtain ⟨h1, h2⟩ := h
    rw [← h1, ← h2]
    exact pres_step_any env f delay v 3
  | StepDelay driver timer =>
    simp only [State.resources, Option.some.injEq, Prod.mk.injEq] at h
    obtain ⟨h1, h2⟩ := h
    subst h1; subst h2
    exact pres_stepdelay env driver timer v 4
  | Invalid => simp [State.resources] at h

/-- Witness for C1: a concrete call from Idle with driver 7 and timer 9 ends
in a state that still holds exactly driver 7 and timer 9. -/
theorem c1_resource_conservation_witness :
    ∃ (res : Except (Error Nat Nat Nat Nat Nat) Bool)
      (s' : State Nat Nat Nat) (v' : Vars Nat),
      update okEnv (.Idle 7 9) ⟨none, [1000], 0, .Forward⟩ = some (.ret res s' v') ∧
      State.resources s' = some (7, 9) :=
  c1_resource_conservation okEnv (.Idle 7 9) ⟨none, [1000], 0, .Forward⟩ 7 9 rfl

/-- Fault-free hardware: every pin, timer, and conversion operation succeeds,
and both timers are expired whenever they are polled. -/
def FullyOk (env : Env Delay Ticks ESd ESt ENs ETim ECv) : Prop :=
  env.stepHw.stepAccInitial = none ∧
  env.stepHw.setHigh = none ∧
  env.stepHw.stepAccPulseEnd = none ∧
  env.stepHw.setLow = none ∧
  (∀ n, ∃ tk, env.stepHw.nsToTicks n = .ok tk) ∧
  (∀ tk, env.stepHw.timerStartPulse tk = none) ∧
  env.stepHw.timerWaitStep = .ok ∧
  (∀ d, ∃ tk, env.delayToTicks d = .ok tk) ∧
  (∀ tk, env.timerStartDelay tk = none) ∧
  env.timerWaitDelay = .ok

/-- One call in the Idle state with no request and an empty profile reports
true idleness and changes nothing. -/
theorem call_idle_nil [Sub Ticks] (env : Env Delay Ticks ESd ESt ENs ETim ECv)
    (driver : Driver) (timer : Timer) (c : Int) (dir : Direction) :
    update env (.Idle driver timer) ⟨none, [], c, dir⟩ =
      some (.ret (.ok false) (.Idle driver timer) ⟨none, [], c, dir⟩) := rfl

/-- One fault-free call in the Idle state with no request and a non-empty
profile consumes the next delay, starts the pulse, and reports busy in the
Step state. -/
theorem call_idle_cons [Sub Ticks] (env : Env Delay Ticks ESd ESt ENs ETim ECv)
    (hFF : FullyOk env) (driver : Driver) (timer : Timer) (d : Delay)
    (p : List Delay) (c : Int) (dir : Direction) :
    update env (.Idle driver timer) ⟨none, d :: p, c, dir⟩ =
      some (.ret (.ok true) (.Step ⟨driver, timer, .PulseStarted⟩ d)
        ⟨none, p, c, dir⟩) := by
  obtain ⟨hA, hB, hC, hD, hNs, hSt, hW, hCv, hSd, hWd⟩ := hFF
  obtain ⟨tp, htp⟩ := hNs env.stepHw.pulseLength
  have h1 : update env (.Idle driver timer) ⟨none, d :: p, c, dir⟩ =
      updateGo 7 env (.Step (StepFuture.new driver timer) d) ⟨none, p, c, dir⟩ := rfl
  rw [h1]
  show updateGo (6+1) env _ _ = _
  simp only [updateGo, StepFuture.poll, StepFuture.new, hA, hB, htp, hSt]

/-- One fault-free call in the Step state (pulse running) with an empty
profile completes the pulse, counts the step, waits out the delay, and reports
true idleness back in Idle. -/
theorem call_step_nil [Sub Ticks] (env : Env Delay Ticks ESd ESt ENs ETim ECv)
    (hFF : FullyOk env) (driver : Driver) (timer : Timer) (d : Delay)
    (c : Int) (dir : Direction) :
    update env (.Step ⟨driver, timer, .PulseStarted⟩ d) ⟨none, [], c, dir⟩ =
      some (.ret (.ok false) (.Idle driver timer)
        ⟨none, [], c + dir.toInt, dir⟩) := by
  obtain ⟨hA, hB, hC, hD, hNs, hSt, hW, hCv, hSd, hWd⟩ := hFF
  obtain ⟨tp, htp⟩ := hNs env.stepHw.pulseLength
  obtain ⟨td, htd⟩ := hCv d
  have h1 : update env (.Step ⟨driver, timer, .PulseStarted⟩ d) ⟨none, [], c, dir⟩ =
      updateGo 7 env (.StepDelay driver timer) ⟨none, [], c + dir.toInt, dir⟩ := by
    show updateGo (7+1) env _ _ = _
    simp only [updateGo, StepFuture.poll, hW, hC, hD, StepFuture.release,
      delay_left, htd, htp, hSd]
  rw [h1]
  have h2 : updateGo 7 env (.StepDelay driver timer)
      (⟨none, [], c + dir.toInt, dir⟩ : Vars Delay) =
      updateGo 6 env (.Idle driver timer) ⟨none, [], c + dir.toInt, dir⟩ := by
    show updateGo (6+1) env _ _ = _
    simp only [updateGo, hWd]
  rw [h2]
  rfl

/-- One fault-free call in the Step state (pulse running) with a non-empty
profile completes the pulse, counts the step, waits out the delay, starts the
next pulse, and reports busy in the Step state for the next delay. -/
theorem call_step_cons [Sub Ticks] (env : Env Delay Ticks ESd ESt ENs ETim ECv)
    (hFF : FullyOk env) (driver : Driver) (timer : Timer) (d1 d2 : Delay)
    (p : List Delay) (c : Int) (dir : Direction) :
    update env (.Step ⟨driver, timer, .PulseStarted⟩ d1) ⟨none, d2 :: p, c, dir⟩ =
      some (.ret (.ok true) (.Step ⟨driver, timer, .PulseStarted⟩ d2)
        ⟨none, p, c + dir.toInt, dir⟩) := by
  obtain ⟨hA, hB, hC, hD, hNs, hSt, hW, hCv, hSd, hWd⟩ := hFF
  obtain ⟨tp, htp⟩ := hNs env.stepHw.pulseLength
  obtain ⟨td, htd⟩ := hCv d1
  have h1 : update env (.Step ⟨driver, timer, .PulseStarted⟩ d1) ⟨none, d2 :: p, c, dir⟩ =
      updateGo 7 env (.StepDelay driver timer) ⟨none, d2 :: p, c + dir.toInt, dir⟩ := by
    show updateGo (7+1) env _ _ = _
    simp only [updateGo, StepFuture.poll, hW, hC, hD, StepFuture.release,
      delay_left, htd, htp, hSd]
  rw [h1]
  have h2 : updateGo 7 env (.StepDelay driver timer)
      (⟨none, d2 :: p, c + dir.toInt, dir⟩ : Vars Delay) =
      updateGo 6 env (.Idle driver timer) ⟨none, d2 :: p, c + dir.toInt, dir⟩ := by
    show updateGo (6+1) env _ _ = _
    simp only [updateGo, hWd]
  rw [h2]
  have h3 : updateGo 6 env (.Idle driver timer)
      (⟨none, d2 :: p, c + dir.toInt, dir⟩ : Vars Delay) =
      updateGo 5 env (.Step (StepFuture.new driver timer) d2)
        ⟨none, p, c + dir.toInt, dir⟩ := rfl
  rw [h3]
  show updateGo (4+1) env _ _ = _
  simp only [updateGo, StepFuture.poll, StepFuture.new, hA, hB, htp, hSt]

/-- Repeatedly call update (one environment per call), stopping when a call
reports something other than busy; returns the final report, state, and
variables, or none when the fuel runs out or a call panics. -/
def drive [Sub Ticks] (envs : Nat → Env Delay Ticks ESd ESt ENs ETim ECv)
    (i : Nat) (fuel : Nat) (s : State Driver Timer Delay) (v : Vars Delay) :
    Option (Except (Error ESd ESt ENs ETim ECv) Bool ×
      State Driver Timer Delay × Vars Delay) :=
  match fuel with
  | 0 => none
  | fuel + 1 =>
    match update (envs i) s v with
    | some (.ret (.ok true) s' v') => drive envs (i+1) fuel s' v'
    | some (.ret res s' v') => some (res, s', v')
    | _ => none

/-- Like drive, but collecting the report, state, and variables after every
call of the run. -/
def driveTrace [Sub Ticks] (envs : Nat → Env Delay Ticks ESd ESt ENs ETim ECv)
    (i : Nat) (fuel : Nat) (s : State Driver Timer Delay) (v : Vars Delay) :
    List (Except (Error ESd ESt ENs ETim ECv) Bool ×
      State Driver Timer Delay × Vars Delay) :=
  match fuel with
  | 0 => []
  | fuel + 1 =>
    match update (envs i) s v with
    | some (.ret (.ok true) s' v') => (.ok true, s', v') :: driveTrace envs (i+1) fuel s' v'
    | some (.ret res s' v') => [(res, s', v')]
    | _ => []

/-- One-step unfolding equation of drive. -/
theorem drive_succ [Sub Ticks] (envs : Nat → Env Delay Ticks ESd ESt ENs ETim ECv)
    (i fuel : Nat) (s : State Driver Timer Delay) (v : Vars Delay) :
    drive envs i (fuel + 1) s v =
      (match update (envs i) s v with
       | some (.ret (.ok true) s' v') => drive envs (i+1) fuel s' v'
       | some (.ret res s' v') => some (res, s', v')
       | _ => none) := rfl

/-- One-step unfolding equation of driveTrace. -/
theorem driveTrace_succ [Sub Ticks] (envs : Nat → Env Delay Ticks ESd ESt ENs ETim ECv)
    (i fuel : Nat) (s : State Driver Timer Delay) (v : Vars Delay) :
    driveTrace envs i (fuel + 1) s v =
      (match update (envs i) s v with
       | some (.ret (.ok true) s' v') => (.ok true, s', v') :: driveTrace envs (i+1) fuel s' v'
       | some (.ret res s' v') => [(res, s', v')]
       | _ => []) := rfl

/-- Driving a fault-free run to completion from mid-pulse: a profile with k
remaining delays takes k+1 further calls, adds k+1 direction units to the
counter, and ends idle. -/
theorem mid_drive [Sub Ticks] (envs : Nat → Env Delay Ticks ESd ESt ENs ETim ECv)
    (hFF : ∀ i, FullyOk (envs i)) (driver : Driver) (timer : Timer) (dir : Direction)
    (p : List Delay) :
    ∀ (i : Nat) (c : Int) (d : Delay),
      drive envs i (p.length + 1) (.Step ⟨driver, timer, .PulseStarted⟩ d)
        ⟨none, p, c, dir⟩ =
      some (.ok false, .Idle driver timer,
        ⟨none, [], c + ((p.length : Int) + 1) * dir.toInt, dir⟩) := by
  induction p with
  | nil =>
    intro i c d
    rw [drive_succ, call_step_nil (envs i) (hFF i) driver timer d c dir]
    show (some (.ok false, .Idle driver timer, ⟨none, [], c + dir.toInt, dir⟩) :
      Option (Except (Error ESd ESt ENs ETim ECv) Bool × State Driver Timer Delay ×
        Vars Delay)) = _
    norm_num
  | cons d2 rest ih =>
    intro i c d
    simp only [List.length_cons]
    rw [drive_succ, call_step_cons (envs i) (hFF i) driver timer d d2 rest c dir]
    show drive envs (i+1) (rest.length + 1)
        (.Step ⟨driver, timer, .PulseStarted⟩ d2) ⟨none, rest, c + dir.toInt, dir⟩ = _
    rw [ih (i+1) (c + dir.toInt) d2]
    simp only [Option.some.injEq, Prod.mk.injEq, Vars.mk.injEq, true_and, and_true]
    push_cast
    ring

/-- During a fault-free run from mid-pulse with no pending request, the
current direction after every call is the starting direction. -/
theorem mid_trace [Sub Ticks] (envs : Nat → Env Delay Ticks ESd ESt ENs ETim ECv)
    (hFF : ∀ i, FullyOk (envs i)) (driver : Driver) (timer : Timer) (dir : Direction)
    (p : List Delay) :
    ∀ (i : Nat) (c : Int) (d : Delay),
      ∀ x ∈ driveTrace envs i (p.length + 1) (.Step ⟨driver, timer, .PulseStarted⟩ d)
        ⟨none, p, c, dir⟩, x.2.2.current_direction = dir := by
  induction p with
  | nil =>
    intro i c d x hx
    rw [driveTrace_succ, call_step_nil (envs i) (hFF i) driver timer d c dir] at hx
    have hx2 : x ∈ [((.ok false : Except (Error ESd ESt ENs ETim ECv) Bool),
        (.Idle driver timer : State Driver Timer Delay),
        (⟨none, [], c + dir.toInt, dir⟩ : Vars Delay))] := hx
    rw [List.mem_singleton] at hx2
    subst hx2
    rfl
  | cons d2 rest ih =>
    intro i c d x hx
    simp only [List.length_cons] at hx
    rw [driveTrace_succ, call_step_cons (envs i) (hFF i) driver timer d d2 rest c dir] at hx
    have hx2 : x ∈ ((.ok true : Except (Error ESd ESt ENs ETim ECv) Bool),
        (.Step ⟨driver, timer, .PulseStarted⟩ d2 : State Driver Timer Delay),
        (⟨none, rest, c + dir.toInt, dir⟩ : Vars Delay)) ::
        driveTrace envs (i+1) (rest.length + 1)
          (.Step ⟨driver, timer, .PulseStarted⟩ d2) ⟨none, rest, c + dir.toInt, dir⟩ := hx
    rcases List.mem_cons.mp hx2 with h | h
    · subst h; rfl
    · exact ih (i+1) (c + dir.toInt) d2 x h

/-- C2: with fault-free hardware, a profile yielding exactly N delays, no
pending request, and expired timers on each poll, driving the machine from
Idle takes exactly N+1 calls to report not-busy; the step counter changes by
exactly N times the signed direction unit, the final state is Idle with the
same resources, and the current direction never changes during the run. -/
theorem c2_profile_drained [Sub Ticks] (envs : Nat → Env Delay Ticks ESd ESt ENs ETim ECv)
    (hFF : ∀ i, FullyOk (envs i)) (driver : Driver) (timer : Timer)
    (p : List Delay) (c : Int) (dir : Direction) :
    drive envs 0 (p.length + 1) (.Idle driver timer) ⟨none, p, c, dir⟩ =
      some (.ok false, .Idle driver timer,
        ⟨none, [], c + (p.length : Int) * dir.toInt, dir⟩) ∧
    ∀ x ∈ driveTrace envs 0 (p.length + 1) (.Idle driver timer) ⟨none, p, c, dir⟩,
      x.2.2.current_direction = dir := by
  constructor
  · cases p with
    | nil =>
      rw [drive_succ, call_idle_nil (envs 0) driver timer c dir]
      show (some (.ok false, .Idle driver timer, ⟨none, [], c, dir⟩) :
        Option (Except (Error ESd ESt ENs ETim ECv) Bool × State Driver Timer Delay ×
          Vars Delay)) = _
      norm_num
    | cons d rest =>
      simp only [List.length_cons]
      rw [drive_succ, call_idle_cons (envs 0) (hFF 0) driver timer d rest c dir]
      show drive envs 1 (rest.length + 1)
          (.Step ⟨driver, timer, .PulseStarted⟩ d) ⟨none, rest, c, dir⟩ = _
      rw [mid_drive envs hFF driver timer dir rest 1 c d]
      simp only [Option.some.injEq, Prod.mk.injEq, Vars.mk.injEq, true_and, and_true]
      push_cast
      ring
  · cases p with
    | nil =>
      intro x hx
      rw [driveTrace_succ, call_idle_nil (envs 0) driver timer c dir] at hx
      have hx2 : x ∈ [((.ok false : Except (Error ESd ESt ENs ETim ECv) Bool),
          (.Idle driver timer : State Driver Timer Delay),
          (⟨none, [], c, dir⟩ : Vars Delay))] := hx
      rw [List.mem_singleton] at hx2
      subst hx2
      rfl
    | cons d rest =>
      intro x hx
      simp only [List.length_cons] at hx
      rw [driveTrace_succ, call_idle_cons (envs 0) (hFF 0) driver timer d rest c dir] at hx
      have hx2 : x ∈ ((.ok true : Except (Error ESd ESt ENs ETim ECv) Bool),
          (.Step ⟨driver, timer, .PulseStarted⟩ d : State Driver Timer Delay),
          (⟨none, rest, c, dir⟩ : Vars Delay)) ::
          driveTrace envs 1 (rest.length + 1)
            (.Step ⟨driver, timer, .PulseStarted⟩ d) ⟨none, rest, c, dir⟩ := hx
      rcases List.mem_cons.mp hx2 with h | h
      · subst h; rfl
      · exact mid_trace envs hFF driver timer dir rest 1 c d x h

/-- The all-succeeding concrete environment is fault-free. -/
theorem okEnv_fullyOk : FullyOk okEnv :=
  ⟨rfl, rfl, rfl, rfl, fun n => ⟨n, rfl⟩, fun _ => rfl, rfl,
   fun d => ⟨d, rfl⟩, fun _ => rfl, rfl⟩

/-- Witness for C2: draining the two-delay profile from the spec scenario
takes three calls, moves the counter from 5 by 2 forward units, ends Idle with
driver 7 and timer 9, and keeps the direction Forward after every call. -/
theorem c2_profile_drained_witness :
    drive (fun _ => okEnv) 0 (([1000, 800] : List Nat).length + 1) (.Idle 7 9)
      ⟨none, [1000, 800], 5, .Forward⟩ =
      some (.ok false, .Idle 7 9,
        ⟨none, [], 5 + (([1000, 800] : List Nat).length : Int) * Direction.toInt .Forward,
          .Forward⟩) ∧
    ∀ x ∈ driveTrace (fun _ => okEnv) 0 (([1000, 800] : List Nat).length + 1) (.Idle 7 9)
      ⟨none, [1000, 800], 5, .Forward⟩, x.2.2.current_direction = .Forward :=
  c2_profile_drained (fun _ => okEnv) (fun _ => okEnv_fullyOk) 7 9 [1000, 800] 5 .Forward

end MotionControl

end Stepper
